import Mathlib

/-!
Verification of the edge model synchronization engine
(src/edge/app/model_sync.py, class ModelSynchronizer).

The Python module is shallowly embedded: the mutable object state
(the artifact directory, the in-memory manifest and the persisted
manifest file) is threaded explicitly through pure functions, network
and transport effects are supplied as explicit outcome parameters, and
fallible library calls are modelled by their observable results.  All
definitions are executable so that concrete runs can be settled by
`decide` or `rfl`.
-/

namespace ModelSync

/-! ### Byte strings and small string helpers

Python string operations used by the source are re-implemented over
`List Char` with structural recursion, so that they reduce inside the
kernel.  `splitOnChar` models `str.split(sep)` for a one-character
separator exactly (in particular `"".split(sep) == [""]`). -/

/-- Model of the Python `str.split` with a one-character separator. -/
def splitOnChar (c : Char) : List Char → List (List Char)
  | [] => [[]]
  | x :: rest =>
    let r := splitOnChar c rest
    if x = c then [] :: r
    else
      match r with
      | [] => [[x]]
      | y :: ys => (x :: y) :: ys

/-- Model of the Python `filename.endswith(".bin")`. -/
def endsWithBin (name : String) : Bool :=
  decide (name.data.reverse.take 4 = ['n', 'i', 'b', '.'])

/-- Model of the Python `download_url.startswith("s3://")`. -/
def startsWithS3 (url : String) : Bool :=
  decide (url.data.take 5 = ['s', '3', ':', '/', '/'])

/-- Take the first `k` characters of a string (model of a truncated write). -/
def strTake (s : String) (k : Nat) : String :=
  String.mk (s.data.take k)

/-- Modelled digest: `hashlib.md5` is an external primitive, modelled as a
fixed deterministic function of the byte stream.  The source streams the
file through the hash in bounded chunks; the digest of the whole stream is
what the engine compares, and the claims depend only on the digest being a
deterministic function of the bytes. -/
def md5_hexdigest (bs : List Nat) : String :=
  Nat.repr (bs.foldl (fun a b => (a * 131 + b % 256 + 17) % 999999937) 5381)

/-! ### Association lists

Python `dict`s keyed by filename are modelled as ordered association
lists with unique keys: lookup finds the first binding, assignment
replaces the first binding in place or appends a fresh one at the end
(Python dicts preserve insertion order and replace in place). -/

/-- Model of `d[k]` / `d.get(k)`. -/
def alookup {α : Type} : List (String × α) → String → Option α
  | [], _ => none
  | p :: rest, k => if p.1 = k then some p.2 else alookup rest k

/-- Model of `d[k] = v`. -/
def aset {α : Type} : List (String × α) → String → α → List (String × α)
  | [], k, v => [(k, v)]
  | p :: rest, k, v => if p.1 = k then (k, v) :: rest else p :: aset rest k v

/-! ### Data model -/

/-- One file of the artifact directory: its bytes, its modification time
and whether reading it succeeds (`os.stat` / `open` outcome). -/
structure FileInfo where
  content : List Nat
  mtime : Nat
  readOk : Bool
deriving DecidableEq

/-- The artifact directory: filename to file state. -/
abbrev FS := List (String × FileInfo)

/-- One entry of `manifest["models"]`, as built by `_get_model_info`. -/
structure ArtifactRecord where
  filename : String
  size : Nat
  modified : Nat
  md5 : String
  source_language : Option String
  target_language : Option String
  error : Option String
deriving DecidableEq

/-- The manifest: `models`, `last_sync`, `device_id`. -/
structure Manifest where
  models : List (String × ArtifactRecord)
  last_sync : Option Nat
  device_id : String
deriving DecidableEq

/-- One remotely declared required artifact, as read from the negotiation
response (`model_info` in the source).  `md5 = ""` models an absent
`md5` key, exactly as `model_info.get("md5", "")` does. -/
structure UpdateSpec where
  filename : String
  download_url : String
  size : Nat
  md5 : String
deriving DecidableEq

/-- The parsed JSON body of the negotiation response, together with the
locally built failure dictionaries of `check_for_updates` (both are plain
dictionaries in the source).  `success = none` models an absent key;
`extra` carries the remaining string fields (such as `error`) verbatim. -/
structure NegBody where
  success : Option Bool
  updates : Option (List UpdateSpec)
  extra : List (String × String)
deriving DecidableEq

/-- The machine state threaded through the engine: the artifact
directory, the in-memory `self.manifest`, and the bytes currently
persisted in the manifest file. -/
structure St where
  fs : FS
  manifest : Manifest
  disk : String
deriving DecidableEq

/-! ### Manifest serialization and `_save_manifest`

`json.dump(self.manifest, f)` is modelled by a deterministic JSON
printer.  `_save_manifest` opens the manifest path for writing, which
truncates, and writes the serialization front to back; the `failAt`
parameter models the write stopping (filesystem error or crash) after
`k` characters.  The `except` clause of the source catches and logs any
error, so the second component (did an error propagate to the caller)
is always `false`. -/

def jsonStr (s : String) : String := "\"" ++ s ++ "\""

def optNatToString : Option Nat → String
  | none => "null"
  | some n => Nat.repr n

def optStrToString : Option String → String
  | none => "null"
  | some s => jsonStr s

def joinComma : List String → String
  | [] => ""
  | [x] => x
  | x :: y :: rest => x ++ ", " ++ joinComma (y :: rest)

def recordToString (r : ArtifactRecord) : String :=
  "\x7b\"filename\": " ++ jsonStr r.filename
    ++ ", \"size\": " ++ Nat.repr r.size
    ++ ", \"modified\": " ++ Nat.repr r.modified
    ++ ", \"md5\": " ++ jsonStr r.md5
    ++ ", \"source_language\": " ++ optStrToString r.source_language
    ++ ", \"target_language\": " ++ optStrToString r.target_language
    ++ ", \"error\": " ++ optStrToString r.error
    ++ "\x7d"

def modelsToString (ms : List (String × ArtifactRecord)) : String :=
  "\x7b" ++ joinComma (ms.map fun p => jsonStr p.1 ++ ": " ++ recordToString p.2) ++ "\x7d"

def manifestToString (m : Manifest) : String :=
  "\x7b\"models\": " ++ modelsToString m.models
    ++ ", \"last_sync\": " ++ optNatToString m.last_sync
    ++ ", \"device_id\": " ++ jsonStr m.device_id
    ++ "\x7d"

/-- Embedding of `_save_manifest` (model_sync.py lines 81 to 87): the file
content after the call, and whether an error propagated to the caller
(never: the source logs and swallows it).  `failAt = some k` models the
in-place write stopping after `k` characters. -/
def save_manifest (m : Manifest) (failAt : Option Nat) : String × Bool :=
  match failAt with
  | none => (manifestToString m, false)
  | some k => (strTake (manifestToString m) k, false)

/-! ### `_get_model_info` and `get_current_models` (the scanner) -/

/-- Parsing of the language pair in `_get_model_info`:
`filename.split(".")[0]` then an exact two-way split on `-`
(the Python tuple unpacking raises unless the split has exactly
two parts). -/
def parseLangPair (filename : String) : Option (String × String) :=
  let language_pair := (splitOnChar '.' filename.data).headD []
  match splitOnChar '-' language_pair with
  | [src, tgt] => some (String.mk src, String.mk tgt)
  | _ => none

/-- The record the `except` clause of `_get_model_info` builds. -/
def errRecord (filename msg : String) : ArtifactRecord :=
  { filename := filename, size := 0, modified := 0, md5 := "",
    source_language := none, target_language := none, error := some msg }

/-- Embedding of `_get_model_info` (model_sync.py lines 115 to 147): stat,
streamed hash and language-pair parse; any per-file error (unreadable
file, malformed name) is caught and yields an error record instead of
propagating. -/
def get_model_info (filename : String) (fi : FileInfo) : ArtifactRecord :=
  if fi.readOk then
    match parseLangPair filename with
    | some (src, tgt) =>
      { filename := filename, size := fi.content.length, modified := fi.mtime,
        md5 := md5_hexdigest fi.content,
        source_language := some src, target_language := some tgt, error := none }
    | none => errRecord filename "not enough values to unpack"
  else errRecord filename "unreadable file"

/-- Embedding of `get_current_models` (model_sync.py lines 97 to 113): one
record per `.bin` file of the artifact directory, in directory order. -/
def get_current_models : FS → List (String × ArtifactRecord)
  | [] => []
  | (name, fi) :: rest =>
    if endsWithBin name then (name, get_model_info name fi) :: get_current_models rest
    else get_current_models rest

/-! ### `check_for_updates` (the negotiator) -/

/-- Outcome of the negotiation HTTP call: the request raised (timeout,
connection failure), or a response with a status code and, when the body
is read, its parse result (`none` models `response.json()` raising). -/
inductive NegOutcome where
  | exn (msg : String)
  | response (status : Nat) (body : Option NegBody)
deriving DecidableEq

/-- The failure dictionary built by `check_for_updates`. -/
def negFailure (e : String) : NegBody :=
  { success := some false, updates := none, extra := [("error", e)] }

/-- Embedding of `check_for_updates` (model_sync.py lines 149 to 192).
The scan result is written into the in-memory manifest before the
network call; only on a 200 response with a parseable body is
`last_sync` set to `now` and the manifest persisted. -/
def check_for_updates (st : St) (neg : NegOutcome) (now : Nat) : NegBody × St :=
  let cur := get_current_models st.fs
  let m1 : Manifest :=
    { models := cur, last_sync := st.manifest.last_sync, device_id := st.manifest.device_id }
  let st1 : St := { fs := st.fs, manifest := m1, disk := st.disk }
  match neg with
  | .exn e => (negFailure e, st1)
  | .response status body =>
    if status ≠ 200 then
      (negFailure ("API error: " ++ Nat.repr status), st1)
    else
      match body with
      | none => (negFailure "invalid JSON in response", st1)
      | some b =>
        let m2 : Manifest :=
          { models := cur, last_sync := some now, device_id := st.manifest.device_id }
        (b, { fs := st.fs, manifest := m2, disk := (save_manifest m2 none).1 })

/-! ### `download_model` (the downloader and verifier) -/

/-- Transport selection of `download_model` (model_sync.py lines 212 to
216): the S3 transport is chosen when the URL starts with `s3://` AND
the S3 client was initialized; everything else goes to the HTTP
transport. -/
inductive Transport where
  | s3
  | http
deriving DecidableEq

def selectTransport (url : String) (s3Available : Bool) : Transport :=
  if startsWithS3 url && s3Available then Transport.s3 else Transport.http

/-- Outcome of one transport invocation: it raised (returning `False`,
possibly leaving a partial file), or it reported completion having
written the fetched bytes to `model_dir/filename`. -/
inductive FetchOutcome where
  | fail (leftover : Option (List Nat))
  | ok (body : List Nat)
deriving DecidableEq

/-- The artifact directory after the transport ran. -/
def applyFetch (fs : FS) (filename : String) (now : Nat) : FetchOutcome → FS
  | .fail none => fs
  | .fail (some leftover) => aset fs filename ⟨leftover, now, true⟩
  | .ok body => aset fs filename ⟨body, now, true⟩

/-- Embedding of the chunked body iteration of `_download_from_http`
(model_sync.py lines 274 to 290): the body arrives and is written to
disk in chunks of at most 8192 bytes. -/
def chunkBytes (bs : List Nat) : List (List Nat) :=
  if h : bs = [] then []
  else bs.take 8192 :: chunkBytes (bs.drop 8192)
termination_by bs.length
decreasing_by
  simp only [List.length_drop]
  have : 0 < bs.length := List.length_pos.mpr h
  omega

/-- The HTTP transport: the sequence of chunk writes and the resulting
file content (their concatenation). -/
def download_from_http (body : List Nat) : List (List Nat) × List Nat :=
  (chunkBytes body, (chunkBytes body).flatten)

/-- Embedding of `download_model` (model_sync.py lines 194 to 255):
returns the boolean result and the state after the call.  On transport
completion, verification checks existence, size, and (when declared) the
recomputed digest; only full verification updates `models[filename]` and
persists the manifest. -/
def download_model (st : St) (spec : UpdateSpec) (fo : FetchOutcome) (now : Nat) :
    Bool × St :=
  let fs1 := applyFetch st.fs spec.filename now fo
  let st1 : St := { fs := fs1, manifest := st.manifest, disk := st.disk }
  match fo with
  | .fail _ => (false, st1)
  | .ok _ =>
    match alookup fs1 spec.filename with
    | none => (false, st1)
    | some fi =>
      if fi.content.length ≠ spec.size then (false, st1)
      else if spec.md5 ≠ "" ∧ md5_hexdigest fi.content ≠ spec.md5 then (false, st1)
      else
        let info := get_model_info spec.filename fi
        let m2 : Manifest :=
          { models := aset st.manifest.models spec.filename info,
            last_sync := st.manifest.last_sync, device_id := st.manifest.device_id }
        (true, { fs := fs1, manifest := m2, disk := (save_manifest m2 none).1 })

/-! ### `sync_models` (the orchestrator) -/

/-- The dictionary `sync_models` returns: the negotiation result passed
through verbatim, the no-updates message dictionary, or the batch
results dictionary whose `success` starts `True` and is set `False` on
each failed artifact. -/
inductive SyncRes where
  | ofBody (b : NegBody)
  | noUpdates
  | batch (success : Bool) (downloaded failed : List String)
deriving DecidableEq

/-- Lookup of the `success` key on a result dictionary. -/
def SyncRes.getSuccess : SyncRes → Option Bool
  | .ofBody b => b.success
  | .noUpdates => some true
  | .batch s _ _ => some s

/-- Lookup of the `downloaded` key on a result dictionary (absent unless
the batch loop ran). -/
def SyncRes.getDownloaded : SyncRes → Option (List String)
  | .batch _ d _ => some d
  | _ => none

/-- Lookup of the `failed` key on a result dictionary (absent unless the
batch loop ran). -/
def SyncRes.getFailed : SyncRes → Option (List String)
  | .batch _ _ f => some f
  | _ => none

/-- Lookup of the `message` key on a result dictionary. -/
def SyncRes.getMessage : SyncRes → Option String
  | .noUpdates => some "No updates available"
  | _ => none

/-- Lookup of the `error` key on a result dictionary. -/
def SyncRes.getError : SyncRes → Option String
  | .ofBody b => alookup b.extra "error"
  | _ => none

/-- The per-artifact loop of `sync_models` (model_sync.py lines 320 to
325), threading the results dictionary `(success, downloaded, failed)`
and the machine state. -/
def syncLoop (env : UpdateSpec → FetchOutcome) (now : Nat) :
    List UpdateSpec → St → Bool × List String × List String →
    (Bool × List String × List String) × St
  | [], st, acc => (acc, st)
  | spec :: rest, st, (s, dl, fl) =>
    let r := download_model st spec (env spec) now
    if r.1 then syncLoop env now rest r.2 (s, dl ++ [spec.filename], fl)
    else syncLoop env now rest r.2 (false, dl, fl ++ [spec.filename])

/-- The boolean outcome and filename of each download of a batch, in
order, with the state threaded exactly as `syncLoop` threads it. -/
def runOutcomes (env : UpdateSpec → FetchOutcome) (now : Nat) :
    List UpdateSpec → St → List (Bool × String)
  | [], _ => []
  | spec :: rest, st =>
    let r := download_model st spec (env spec) now
    (r.1, spec.filename) :: runOutcomes env now rest r.2

/-- Embedding of `sync_models` (model_sync.py lines 292 to 334): the
negotiation result is returned verbatim unless its `success` key is
true; an empty or absent update list yields the no-updates dictionary;
otherwise each update is downloaded in order and classified. -/
def sync_models (st : St) (neg : NegOutcome) (env : UpdateSpec → FetchOutcome)
    (now : Nat) : SyncRes × St :=
  let r := check_for_updates st neg now
  let update_info := r.1
  let st1 := r.2
  if update_info.success.getD false = false then (.ofBody update_info, st1)
  else
    match update_info.updates.getD [] with
    | [] => (.noUpdates, st1)
    | spec :: rest =>
      let res := syncLoop env now (spec :: rest) st1 (true, [], [])
      (.batch res.1.1 res.1.2.1 res.1.2.2, res.2)

/-! ### Stated invariant and sample fixtures -/

/-- The manifest-keys invariant of the data model: every key of
`models` corresponds to a file present in the artifact directory. -/
def InvB (st : St) : Bool :=
  st.manifest.models.all fun p => (alookup st.fs p.1).isSome

/-- An empty machine state (fresh device, empty directory and manifest). -/
def sampleSt : St :=
  { fs := [], manifest := { models := [], last_sync := none, device_id := "dev" }, disk := "" }

/-- A batch of three required artifacts. -/
def sampleSpecs : List UpdateSpec :=
  [{ filename := "a-b.bin", download_url := "https://x/a", size := 2, md5 := "" },
   { filename := "c-d.bin", download_url := "https://x/c", size := 2, md5 := "" },
   { filename := "e-f.bin", download_url := "https://x/e", size := 1, md5 := "" }]

/-- A transport in which the second artifact of `sampleSpecs` delivers a
body whose size does not match its declared size, and the other two
deliver matching bodies. -/
def sampleEnv : UpdateSpec → FetchOutcome := fun s =>
  if s.filename = "c-d.bin" then .ok [5]
  else if s.filename = "a-b.bin" then .ok [1, 2]
  else .ok [9]

/-- A successful negotiation body declaring the three sample updates. -/
def sampleBody3 : NegBody :=
  { success := some true, updates := some sampleSpecs, extra := [] }

/-- A successful negotiation body declaring no updates. -/
def sampleEmptyBody : NegBody :=
  { success := some true, updates := some [], extra := [] }

/-- A 200 response whose body reports failure. -/
def sampleFailBody : NegBody :=
  { success := some false, updates := none, extra := [("error", "catalog busy")] }

/-- An empty manifest. -/
def sampleManifest : Manifest :=
  { models := [], last_sync := none, device_id := "dev" }

/-- A previously installed version of an artifact. -/
def samplePrevFile : FileInfo := ⟨[9, 9], 1, true⟩

/-- A state in which `en-es.bin` is already installed and recorded in the
manifest (as the scanner records it at the start of a run). -/
def samplePrevSt : St :=
  { fs := [("en-es.bin", samplePrevFile)],
    manifest := { models := [("en-es.bin", get_model_info "en-es.bin" samplePrevFile)],
                  last_sync := some 1, device_id := "dev" },
    disk := "" }

/-- An update replacing `en-es.bin` with a 4-byte artifact. -/
def sampleReplaceSpec : UpdateSpec :=
  { filename := "en-es.bin", download_url := "https://x/en-es.bin", size := 4, md5 := "" }

/-! ## Helper lemmas -/

theorem alookup_aset_self {α : Type} (xs : List (String × α)) (k : String) (v : α) :
    alookup (aset xs k v) k = some v := by
  induction xs with
  | nil => simp [aset, alookup]
  | cons p rest ih =>
    by_cases h : p.1 = k
    · simp [aset, alookup, h]
    · simp [aset, alookup, h, ih]

theorem alookup_aset_ne {α : Type} (xs : List (String × α)) (k k2 : String) (v : α)
    (h : k2 ≠ k) : alookup (aset xs k v) k2 = alookup xs k2 := by
  induction xs with
  | nil =>
    have h2 : k ≠ k2 := fun he => h he.symm
    simp [aset, alookup, h2]
  | cons p rest ih =>
    by_cases hp : p.1 = k
    · have hp2 : p.1 ≠ k2 := by rw [hp]; exact fun he => h he.symm
      have h2 : k ≠ k2 := fun he => h he.symm
      simp [aset, alookup, hp, hp2, h2]
    · by_cases hq : p.1 = k2
      · simp only [aset, hp, if_false]
        simp [alookup, hq]
      · simp only [aset, hp, if_false]
        simp [alookup, hq, ih]

theorem alookup_isSome_aset {α : Type} (xs : List (String × α)) (k k2 : String) (v : α)
    (h : (alookup xs k2).isSome = true) : (alookup (aset xs k v) k2).isSome = true := by
  by_cases hk : k2 = k
  · subst hk; simp [alookup_aset_self]
  · rw [alookup_aset_ne _ _ _ _ hk]; exact h

theorem alookup_aset_isSome_cases {α : Type} (xs : List (String × α)) (k k2 : String)
    (v : α) (h : (alookup (aset xs k v) k2).isSome = true) :
    k2 = k ∨ (alookup xs k2).isSome = true := by
  by_cases hk : k2 = k
  · exact Or.inl hk
  · right; rw [alookup_aset_ne _ _ _ _ hk] at h; exact h

theorem alookup_isSome_of_mem {α : Type} {xs : List (String × α)} {k : String} {v : α}
    (h : (k, v) ∈ xs) : (alookup xs k).isSome = true := by
  induction xs with
  | nil => simp at h
  | cons p rest ih =>
    rcases List.mem_cons.mp h with h1 | h2
    · rw [← h1]; simp [alookup]
    · by_cases hp : p.1 = k <;> simp [alookup, hp, ih h2]

theorem exists_mem_of_alookup_isSome {α : Type} {xs : List (String × α)} {k : String}
    (h : (alookup xs k).isSome = true) : ∃ v, (k, v) ∈ xs := by
  induction xs with
  | nil => simp [alookup] at h
  | cons p rest ih =>
    by_cases hp : p.1 = k
    · exact ⟨p.2, by rw [← hp]; exact List.mem_cons_self p rest⟩
    · simp only [alookup, hp, if_false] at h
      obtain ⟨v, hv⟩ := ih h
      exact ⟨v, List.mem_cons_of_mem _ hv⟩

theorem invB_iff (st : St) :
    InvB st = true ↔
      ∀ k, (alookup st.manifest.models k).isSome = true →
        (alookup st.fs k).isSome = true := by
  constructor
  · intro h k hk
    obtain ⟨v, hv⟩ := exists_mem_of_alookup_isSome hk
    simpa using (List.all_eq_true.mp h) (k, v) hv
  · intro h
    refine List.all_eq_true.mpr fun p hp => ?_
    have hm : (p.1, p.2) ∈ st.manifest.models := by simpa using hp
    simpa using h p.1 (alookup_isSome_of_mem hm)

theorem get_current_models_keys (fs : FS) :
    (get_current_models fs).map Prod.fst
      = (fs.filter fun p => endsWithBin p.1).map Prod.fst := by
  induction fs with
  | nil => simp [get_current_models]
  | cons p rest ih =>
    obtain ⟨name, fi⟩ := p
    cases hb : endsWithBin name <;>
      simp [get_current_models, List.filter_cons, hb, ih]

theorem alookup_scan_isSome (fs : FS) (k : String)
    (h : (alookup (get_current_models fs) k).isSome = true) :
    (alookup fs k).isSome = true := by
  induction fs with
  | nil => simp [get_current_models, alookup] at h
  | cons p rest ih =>
    obtain ⟨name, fi⟩ := p
    by_cases hk : name = k
    · simp [alookup, hk]
    · cases hb : endsWithBin name with
      | true =>
        rw [get_current_models] at h
        simp only [hb, if_true, alookup, hk, if_false] at h
        simp only [alookup, hk, if_false]
        exact ih h
      | false =>
        rw [get_current_models] at h
        simp only [hb, Bool.false_eq_true, if_false] at h
        simp only [alookup, hk, if_false]
        exact ih h

theorem scan_mem (fs : FS) (name : String) (fi : FileInfo)
    (hm : (name, fi) ∈ fs) (hb : endsWithBin name = true) :
    (name, get_model_info name fi) ∈ get_current_models fs := by
  induction fs with
  | nil => simp at hm
  | cons p rest ih =>
    obtain ⟨n2, f2⟩ := p
    rcases List.mem_cons.mp hm with h1 | h2
    · obtain ⟨he1, he2⟩ := Prod.mk.injEq .. ▸ h1
      subst he1; subst he2
      simp [get_current_models, hb]
    · cases hbn : endsWithBin n2 <;> simp [get_current_models, hbn]
      · exact ih h2
      · exact Or.inr (ih h2)

theorem download_fail_eq (st : St) (spec : UpdateSpec) (lo : Option (List Nat)) (now : Nat) :
    download_model st spec (.fail lo) now
      = (false, { fs := applyFetch st.fs spec.filename now (.fail lo),
                  manifest := st.manifest, disk := st.disk }) := by
  simp [download_model]

theorem download_ok_cases (st : St) (spec : UpdateSpec) (body : List Nat) (now : Nat) :
    (body.length = spec.size ∧ (spec.md5 = "" ∨ md5_hexdigest body = spec.md5)
      ∧ download_model st spec (.ok body) now
        = (true,
           { fs := aset st.fs spec.filename ⟨body, now, true⟩,
             manifest :=
               { models := aset st.manifest.models spec.filename
                   (get_model_info spec.filename ⟨body, now, true⟩),
                 last_sync := st.manifest.last_sync,
                 device_id := st.manifest.device_id },
             disk := manifestToString
               { models := aset st.manifest.models spec.filename
                   (get_model_info spec.filename ⟨body, now, true⟩),
                 last_sync := st.manifest.last_sync,
                 device_id := st.manifest.device_id } }))
    ∨ (¬(body.length = spec.size ∧ (spec.md5 = "" ∨ md5_hexdigest body = spec.md5))
      ∧ download_model st spec (.ok body) now
        = (false,
           { fs := aset st.fs spec.filename ⟨body, now, true⟩,
             manifest := st.manifest, disk := st.disk })) := by
  by_cases h1 : body.length = spec.size
  · by_cases h2 : spec.md5 = "" ∨ md5_hexdigest body = spec.md5
    · left
      refine ⟨h1, h2, ?_⟩
      have h2b : ¬(spec.md5 ≠ "" ∧ md5_hexdigest body ≠ spec.md5) := by tauto
      simp [download_model, applyFetch, alookup_aset_self, h1, h2b, save_manifest]
    · right
      refine ⟨fun hc => h2 hc.2, ?_⟩
      have h2b : spec.md5 ≠ "" ∧ md5_hexdigest body ≠ spec.md5 := by tauto
      simp [download_model, applyFetch, alookup_aset_self, h1, h2b]
  · right
    refine ⟨fun hc => h1 hc.1, ?_⟩
    simp [download_model, applyFetch, alookup_aset_self, h1]

theorem download_model_invB (st : St) (spec : UpdateSpec) (fo : FetchOutcome) (now : Nat)
    (h : InvB st = true) : InvB ((download_model st spec fo now).2) = true := by
  rw [invB_iff] at h ⊢
  cases fo with
  | fail lo =>
    rw [download_fail_eq]
    intro k hk
    cases lo with
    | none => exact h k hk
    | some leftover => exact alookup_isSome_aset _ _ _ _ (h k hk)
  | ok body =>
    rcases download_ok_cases st spec body now with ⟨_, _, heq⟩ | ⟨_, heq⟩
    · rw [heq]
      intro k hk
      rcases alookup_aset_isSome_cases _ _ _ _ hk with hk2 | hk2
      · subst hk2; simp [alookup_aset_self]
      · exact alookup_isSome_aset _ _ _ _ (h k hk2)
    · rw [heq]
      intro k hk
      exact alookup_isSome_aset _ _ _ _ (h k hk)

theorem check_for_updates_state (st : St) (neg : NegOutcome) (now : Nat) :
    ((check_for_updates st neg now).2).manifest.models = get_current_models st.fs
      ∧ ((check_for_updates st neg now).2).fs = st.fs := by
  cases neg with
  | exn e => simp [check_for_updates]
  | response status body =>
    by_cases hs : status = 200
    · subst hs
      cases body <;> simp [check_for_updates]
    · simp [check_for_updates, hs]

theorem check_for_updates_invB (st : St) (neg : NegOutcome) (now : Nat) :
    InvB ((check_for_updates st neg now).2) = true := by
  rw [invB_iff]
  intro k hk
  rw [(check_for_updates_state st neg now).2]
  rw [(check_for_updates_state st neg now).1] at hk
  exact alookup_scan_isSome st.fs k hk

theorem syncLoop_invB (env : UpdateSpec → FetchOutcome) (now : Nat)
    (specs : List UpdateSpec) :
    ∀ (st : St) (acc : Bool × List String × List String), InvB st = true →
      InvB ((syncLoop env now specs st acc).2) = true := by
  induction specs with
  | nil => intro st acc h; simpa [syncLoop] using h
  | cons spec rest ih =>
    intro st acc h
    obtain ⟨s, dl, fl⟩ := acc
    by_cases hr : (download_model st spec (env spec) now).1 = true
    · simp only [syncLoop, hr, if_true]
      exact ih _ _ (download_model_invB _ _ _ _ h)
    · simp only [syncLoop, hr, if_false]
      exact ih _ _ (download_model_invB _ _ _ _ h)

theorem sync_models_invB (st : St) (neg : NegOutcome) (env : UpdateSpec → FetchOutcome)
    (now : Nat) : InvB ((sync_models st neg env now).2) = true := by
  have h1 := check_for_updates_invB st neg now
  rw [sync_models]
  by_cases hs : ((check_for_updates st neg now).1).success.getD false = false
  · simpa [hs] using h1
  · simp only [hs, if_false]
    cases hu : ((check_for_updates st neg now).1).updates.getD [] with
    | nil => simpa using h1
    | cons spec rest => exact syncLoop_invB _ _ _ _ _ h1

theorem runOutcomes_map_snd (env : UpdateSpec → FetchOutcome) (now : Nat)
    (specs : List UpdateSpec) :
    ∀ st : St, (runOutcomes env now specs st).map (fun o => o.2)
      = specs.map (fun s => s.filename) := by
  induction specs with
  | nil => intro st; simp [runOutcomes]
  | cons spec rest ih => intro st; simp [runOutcomes, ih]

theorem syncLoop_res (env : UpdateSpec → FetchOutcome) (now : Nat)
    (specs : List UpdateSpec) :
    ∀ (st : St) (s : Bool) (dl fl : List String),
      (syncLoop env now specs st (s, dl, fl)).1
        = (s && ((runOutcomes env now specs st).all fun o => o.1),
           dl ++ (((runOutcomes env now specs st).filter fun o => o.1).map fun o => o.2),
           fl ++ (((runOutcomes env now specs st).filter fun o => !o.1).map fun o => o.2)) := by
  induction specs with
  | nil => intro st s dl fl; simp [syncLoop, runOutcomes]
  | cons spec rest ih =>
    intro st s dl fl
    by_cases hr : (download_model st spec (env spec) now).1 = true
    · simp [syncLoop, runOutcomes, hr, ih, List.append_assoc]
    · have hr2 : (download_model st spec (env spec) now).1 = false :=
        Bool.not_eq_true _ ▸ hr
      simp [syncLoop, runOutcomes, hr2, ih, List.append_assoc]

theorem all_iff_filter_not_nil (l : List (Bool × String)) :
    (l.all fun o => o.1) = true ↔ (l.filter fun o => !o.1) = [] := by
  induction l with
  | nil => simp
  | cons a l ih =>
    cases ha : a.1 <;> simp [List.filter_cons, ha, ih]

theorem length_filter_add_length_filter_not {α : Type} (l : List α) (p : α → Bool) :
    (l.filter p).length + (l.filter fun a => !p a).length = l.length := by
  induction l with
  | nil => simp
  | cons a l ih =>
    cases hp : p a <;> simp [List.filter_cons, hp] <;> omega

theorem chunkBytes_flatten (bs : List Nat) : (chunkBytes bs).flatten = bs := by
  generalize hn : bs.length = n
  induction n using Nat.strong_induction_on generalizing bs with
  | _ n ih =>
    by_cases h : bs = []
    · subst h; simp [chunkBytes]
    · rw [chunkBytes, dif_neg h, List.flatten_cons]
      have hlen : (bs.drop 8192).length < n := by
        have hp : 0 < bs.length := List.length_pos.mpr h
        simp only [List.length_drop]
        omega
      rw [ih _ hlen _ rfl]
      exact List.take_append_drop 8192 bs

theorem chunkBytes_le (bs : List Nat) : ∀ c ∈ chunkBytes bs, c.length ≤ 8192 := by
  generalize hn : bs.length = n
  induction n using Nat.strong_induction_on generalizing bs with
  | _ n ih =>
    by_cases h : bs = []
    · subst h; simp [chunkBytes]
    · rw [chunkBytes, dif_neg h]
      intro c hc
      rcases List.mem_cons.mp hc with h1 | h2
      · subst h1
        simp only [List.length_take]
        exact Nat.min_le_left _ _
      · have hlen : (bs.drop 8192).length < n := by
          have hp : 0 < bs.length := List.length_pos.mpr h
          simp only [List.length_drop]
          omega
        exact ih _ hlen _ rfl c h2

/-! ## Claims -/

/-- C1, counterexample to the claim as stated: starting from a state in
which a previous version of `en-es.bin` is installed and recorded (as the
scanner records it), a re-download whose transport completes but whose
size verification fails returns false, yet a manifest entry for that
artifact is still left (the stale pre-download entry), while the
downloaded file remains on disk. -/
theorem C1_download_verify_counterexample :
    (download_model samplePrevSt sampleReplaceSpec (.ok [1, 2, 3]) 2).1 = false
    ∧ alookup ((download_model samplePrevSt sampleReplaceSpec (.ok [1, 2, 3]) 2).2).fs
        "en-es.bin" = some ⟨[1, 2, 3], 2, true⟩
    ∧ alookup
        ((download_model samplePrevSt sampleReplaceSpec (.ok [1, 2, 3]) 2).2).manifest.models
        "en-es.bin" = some (get_model_info "en-es.bin" samplePrevFile) := by
  decide

/-- C1 (amended): for every UpdateSpec whose transport reports completion
having written `body`, `download_model` returns true iff the downloaded
file exists at its path with byte size equal to the declared size and,
when a digest was declared, a matching recomputed digest; the manifest
entry `models[filename]` is updated and the manifest persisted exactly
when it returns true; on failed verification the manifest is left
unmodified and unpersisted — no entry is newly added for the artifact
(none is present afterwards when none was present before), though an
entry that already existed remains — while the downloaded file remains
on disk. -/
theorem C1_download_verify (st : St) (spec : UpdateSpec) (body : List Nat) (now : Nat) :
    ((download_model st spec (.ok body) now).1 = true ↔
      ∃ fi, alookup ((download_model st spec (.ok body) now).2).fs spec.filename = some fi
        ∧ fi.content.length = spec.size
        ∧ (spec.md5 = "" ∨ md5_hexdigest fi.content = spec.md5))
    ∧ ((download_model st spec (.ok body) now).1 = true →
        alookup ((download_model st spec (.ok body) now).2).manifest.models spec.filename
          = some (get_model_info spec.filename ⟨body, now, true⟩)
        ∧ ((download_model st spec (.ok body) now).2).disk
          = manifestToString ((download_model st spec (.ok body) now).2).manifest)
    ∧ ((download_model st spec (.ok body) now).1 = false →
        ((download_model st spec (.ok body) now).2).manifest = st.manifest
        ∧ ((download_model st spec (.ok body) now).2).disk = st.disk
        ∧ alookup ((download_model st spec (.ok body) now).2).fs spec.filename
          = some ⟨body, now, true⟩
        ∧ (alookup st.manifest.models spec.filename = none →
            alookup ((download_model st spec (.ok body) now).2).manifest.models
              spec.filename = none)) := by
  rcases download_ok_cases st spec body now with ⟨h1, h2, heq⟩ | ⟨hn, heq⟩
  · refine ⟨?_, fun _ => ?_, fun hf => ?_⟩
    · rw [heq]
      constructor
      · intro _
        exact ⟨⟨body, now, true⟩, alookup_aset_self st.fs spec.filename _, h1, h2⟩
      · intro _; rfl
    · rw [heq]
      exact ⟨alookup_aset_self st.manifest.models spec.filename _, rfl⟩
    · rw [heq] at hf; simp at hf
  · refine ⟨?_, fun ht => ?_, fun _ => ?_⟩
    · rw [heq]
      constructor
      · intro h; simp at h
      · rintro ⟨fi, hfi, hlen, hmd⟩
        rw [alookup_aset_self st.fs spec.filename _] at hfi
        injection hfi with hfi2
        rw [← hfi2] at hlen hmd
        exact absurd ⟨hlen, hmd⟩ hn
    · rw [heq] at ht; simp at ht
    · rw [heq]
      exact ⟨rfl, rfl, alookup_aset_self st.fs spec.filename _, fun hnone => hnone⟩

/-- C3: on a 200 negotiation response with a parseable body, whatever the
body declares (in particular when it declares zero required updates),
`check_for_updates` returns the body verbatim, advances the in-memory
manifest `last_sync` to now, and persists the manifest file. -/
theorem C3_success_advances_last_sync (st : St) (b : NegBody) (now : Nat) :
    (check_for_updates st (.response 200 (some b)) now).1 = b
    ∧ ((check_for_updates st (.response 200 (some b)) now).2).manifest.last_sync = some now
    ∧ ((check_for_updates st (.response 200 (some b)) now).2).disk
        = manifestToString ((check_for_updates st (.response 200 (some b)) now).2).manifest := by
  simp [check_for_updates, save_manifest]

/-- C6, counterexample to the claim as stated: a failed (interrupted)
write of the empty manifest leaves a one-character partial JSON document
visible at the manifest path — neither the old content nor the full new
serialization — and no error is surfaced to the caller (no
PersistenceError), since `_save_manifest` writes in place and swallows
exceptions. -/
theorem C6_save_counterexample :
    (save_manifest sampleManifest (some 1)).2 = false
    ∧ (save_manifest sampleManifest (some 1)).1 = "\x7b"
    ∧ (save_manifest sampleManifest (some 1)).1 ≠ manifestToString sampleManifest
    ∧ (save_manifest sampleManifest (some 1)).1 ≠ "" := by
  decide

/-- C6 (amended): `_save_manifest` writes the serialized manifest
directly in place at the manifest path; a write that stops after `k`
characters leaves exactly the first `k` characters visible (a partial
manifest can be observed), and a write failure is logged and swallowed,
never surfaced as an error to the caller. -/
theorem C6_save_in_place :
    (∀ (m : Manifest) (failAt : Option Nat), (save_manifest m failAt).2 = false)
    ∧ (∀ m : Manifest, (save_manifest m none).1 = manifestToString m)
    ∧ (∀ (m : Manifest) (k : Nat), (save_manifest m (some k)).1 = strTake (manifestToString m) k)
    ∧ (∃ (m : Manifest) (k : Nat),
        (save_manifest m (some k)).1 ≠ manifestToString m
        ∧ (save_manifest m (some k)).1 ≠ "") := by
  refine ⟨fun m fa => ?_, fun m => rfl, fun m k => rfl, sampleManifest, 1, by decide⟩
  cases fa <;> rfl

/-- C7: every key of the manifest `models` mapping corresponds to a file
present in the artifact directory; the scanner (inside
`check_for_updates`) establishes this by rebuilding the mapping from the
directory, `download_model` preserves it and is the only operation to
add or replace a single entry, doing so exactly when it returns true —
after a verified fetch has placed that file on disk — and a whole
`sync_models` run ends in a state satisfying it. -/
theorem C7_manifest_keys_invariant :
    (∀ (st : St) (neg : NegOutcome) (now : Nat),
        InvB ((check_for_updates st neg now).2) = true)
    ∧ (∀ (st : St) (spec : UpdateSpec) (fo : FetchOutcome) (now : Nat),
        InvB st = true → InvB ((download_model st spec fo now).2) = true)
    ∧ (∀ (st : St) (spec : UpdateSpec) (fo : FetchOutcome) (now : Nat),
        ((download_model st spec fo now).1 = false →
          ((download_model st spec fo now).2).manifest.models = st.manifest.models)
        ∧ ((download_model st spec fo now).1 = true →
          ∃ fi, alookup ((download_model st spec fo now).2).fs spec.filename = some fi
            ∧ fi.content.length = spec.size
            ∧ (spec.md5 = "" ∨ md5_hexdigest fi.content = spec.md5)
            ∧ ((download_model st spec fo now).2).manifest.models
                = aset st.manifest.models spec.filename (get_model_info spec.filename fi)))
    ∧ (∀ (st : St) (neg : NegOutcome) (env : UpdateSpec → FetchOutcome) (now : Nat),
        InvB ((sync_models st neg env now).2) = true) := by
  refine ⟨check_for_updates_invB, download_model_invB, ?_, sync_models_invB⟩
  intro st spec fo now
  constructor
  · intro hf
    cases fo with
    | fail lo => rw [download_fail_eq]
    | ok body =>
      rcases download_ok_cases st spec body now with ⟨_, _, heq⟩ | ⟨_, heq⟩
      · rw [heq] at hf; simp at hf
      · rw [heq]
  · intro ht
    cases fo with
    | fail lo => rw [download_fail_eq] at ht; simp at ht
    | ok body =>
      rcases download_ok_cases st spec body now with ⟨h1, h2, heq⟩ | ⟨hn, heq⟩
      · exact ⟨⟨body, now, true⟩, by rw [heq]; exact alookup_aset_self st.fs spec.filename _,
          h1, h2, by rw [heq]⟩
      · rw [heq] at ht; simp at ht

/-- C8: the scan produces one record per `.bin` file of the directory (in
directory order) and never drops a file: an unreadable file yields a
record carrying an explicit error marker, and a filename that does not
decompose into a language pair yields a record carrying an explicit
error marker, rather than failing the scan. -/
theorem C8_scan_best_effort :
    (∀ fs : FS, (get_current_models fs).map Prod.fst
        = (fs.filter fun p => endsWithBin p.1).map Prod.fst)
    ∧ (∀ (fs : FS) (name : String) (fi : FileInfo),
        (name, fi) ∈ fs → endsWithBin name = true →
          (name, get_model_info name fi) ∈ get_current_models fs)
    ∧ (∀ (name : String) (fi : FileInfo), fi.readOk = false →
        (get_model_info name fi).error = some "unreadable file"
        ∧ (get_model_info name fi).filename = name)
    ∧ (∀ (name : String) (fi : FileInfo), fi.readOk = true → parseLangPair name = none →
        (get_model_info name fi).error.isSome = true
        ∧ (get_model_info name fi).filename = name) := by
  refine ⟨get_current_models_keys, scan_mem, ?_, ?_⟩
  · intro name fi h
    simp [get_model_info, errRecord, h]
  · intro name fi h1 h2
    simp [get_model_info, errRecord, h1, h2]

/-- C9, counterexample to the claim as stated: transport selection does
not depend solely on the URL scheme — an `s3://` locator routes to the
HTTP transport when the S3 client is unavailable. -/
theorem C9_transport_counterexample :
    startsWithS3 "s3://bucket/key" = true
    ∧ selectTransport "s3://bucket/key" false = Transport.http
    ∧ selectTransport "s3://bucket/key" false ≠ selectTransport "s3://bucket/key" true := by
  decide

/-- C9 (amended): the S3 transport is selected exactly when the URL has
the `s3://` scheme and the S3 client is available; any other URL (and
any URL when the client is unavailable) routes to the HTTP transport,
whose streamed download writes the body to disk in chunks of at most
8192 bytes whose concatenation is exactly the body. -/
theorem C9_transport_selection :
    (∀ (url : String) (av : Bool),
        selectTransport url av = Transport.s3 ↔ (startsWithS3 url = true ∧ av = true))
    ∧ (∀ (url : String) (av : Bool), startsWithS3 url = false →
        selectTransport url av = Transport.http)
    ∧ (∀ body : List Nat, (download_from_http body).2 = body)
    ∧ (∀ (body c : List Nat), c ∈ (download_from_http body).1 → c.length ≤ 8192) := by
  refine ⟨?_, ?_, ?_, ?_⟩
  · intro url av
    cases h1 : startsWithS3 url <;> cases av <;> simp [selectTransport, h1]
  · intro url av h1
    cases av <;> simp [selectTransport, h1]
  · intro body
    exact chunkBytes_flatten body
  · intro body c hc
    exact chunkBytes_le body c hc

/-- C4: when the negotiation call raises (for example times out) or
returns a non-200 status, `check_for_updates` returns the failure
dictionary with `success = false` and an `error` entry, the persisted
manifest file is unchanged, and `last_sync` is unchanged both in memory
and on disk; `sync_models` passes that failure through verbatim. -/
theorem C4_negotiation_failure_no_mutation (st : St) (now : Nat) (e : String)
    (code : Nat) (bodyOpt : Option NegBody) (env : UpdateSpec → FetchOutcome)
    (hc : code ≠ 200) :
    (check_for_updates st (.exn e) now).1 = negFailure e
    ∧ (negFailure e).success = some false
    ∧ alookup (negFailure e).extra "error" = some e
    ∧ ((check_for_updates st (.exn e) now).2).disk = st.disk
    ∧ ((check_for_updates st (.exn e) now).2).manifest.last_sync = st.manifest.last_sync
    ∧ (check_for_updates st (.response code bodyOpt) now).1
        = negFailure ("API error: " ++ Nat.repr code)
    ∧ ((check_for_updates st (.response code bodyOpt) now).2).disk = st.disk
    ∧ ((check_for_updates st (.response code bodyOpt) now).2).manifest.last_sync
        = st.manifest.last_sync
    ∧ (sync_models st (.exn e) env now).1 = SyncRes.ofBody (negFailure e)
    ∧ ((sync_models st (.exn e) env now).1).getSuccess = some false
    ∧ ((sync_models st (.exn e) env now).2).disk = st.disk
    ∧ ((sync_models st (.exn e) env now).2).manifest.last_sync
        = st.manifest.last_sync := by
  have hchk : check_for_updates st (.exn e) now
      = (negFailure e,
         { fs := st.fs,
           manifest := { models := get_current_models st.fs,
                         last_sync := st.manifest.last_sync,
                         device_id := st.manifest.device_id },
           disk := st.disk }) := by
    simp [check_for_updates]
  have hsync : sync_models st (.exn e) env now
      = (SyncRes.ofBody (negFailure e), (check_for_updates st (.exn e) now).2) := by
    rw [sync_models]
    simp [hchk, negFailure]
  refine ⟨by rw [hchk], rfl, rfl, by rw [hchk], by rw [hchk], ?_, ?_, ?_, ?_, ?_, ?_, ?_⟩
  · simp [check_for_updates, hc]
  · simp [check_for_updates, hc]
  · simp [check_for_updates, hc]
  · rw [hsync]
  · rw [hsync]; rfl
  · rw [hsync, hchk]
  · rw [hsync, hchk]

/-- C4 witness: the theorem applied to the empty sample state, a timeout
exception and a 500 status. -/
theorem C4_negotiation_failure_no_mutation_witness :
    (check_for_updates sampleSt (.exn "timeout") 5).1 = negFailure "timeout"
    ∧ (negFailure "timeout").success = some false
    ∧ alookup (negFailure "timeout").extra "error" = some "timeout"
    ∧ ((check_for_updates sampleSt (.exn "timeout") 5).2).disk = sampleSt.disk
    ∧ ((check_for_updates sampleSt (.exn "timeout") 5).2).manifest.last_sync
        = sampleSt.manifest.last_sync
    ∧ (check_for_updates sampleSt (.response 500 none) 5).1
        = negFailure ("API error: " ++ Nat.repr 500)
    ∧ ((check_for_updates sampleSt (.response 500 none) 5).2).disk = sampleSt.disk
    ∧ ((check_for_updates sampleSt (.response 500 none) 5).2).manifest.last_sync
        = sampleSt.manifest.last_sync
    ∧ (sync_models sampleSt (.exn "timeout") sampleEnv 5).1
        = SyncRes.ofBody (negFailure "timeout")
    ∧ ((sync_models sampleSt (.exn "timeout") sampleEnv 5).1).getSuccess = some false
    ∧ ((sync_models sampleSt (.exn "timeout") sampleEnv 5).2).disk = sampleSt.disk
    ∧ ((sync_models sampleSt (.exn "timeout") sampleEnv 5).2).manifest.last_sync
        = sampleSt.manifest.last_sync :=
  C4_negotiation_failure_no_mutation sampleSt 5 "timeout" 500 none sampleEnv (by decide)

/-- C5, counterexample to the claim as stated: when negotiation succeeds
with an empty update list, the result of `sync_models` is the no-updates
message dictionary, which carries no `downloaded` and no `failed` key at
all — it is not `{success: true, downloaded: [], failed: []}`. -/
theorem C5_no_updates_counterexample :
    (sync_models sampleSt (.response 200 (some sampleEmptyBody)) sampleEnv 3).1
      = SyncRes.noUpdates
    ∧ ((sync_models sampleSt (.response 200 (some sampleEmptyBody)) sampleEnv 3).1).getDownloaded
        = none
    ∧ ((sync_models sampleSt (.response 200 (some sampleEmptyBody)) sampleEnv 3).1).getFailed
        = none
    ∧ ¬(((sync_models sampleSt (.response 200 (some sampleEmptyBody)) sampleEnv 3).1).getDownloaded
          = some []
        ∧ ((sync_models sampleSt (.response 200 (some sampleEmptyBody)) sampleEnv 3).1).getFailed
          = some []) := by
  decide

/-- C5 (amended): whenever negotiation succeeds and returns an empty or
absent update list, `sync_models` returns the dictionary
`{success: true, message: "No updates available"}` — a success result
that carries no `downloaded`/`failed` keys (rather than explicit empty
lists); in particular a second run with no new artifacts required
returns exactly this value. -/
theorem C5_no_updates_message (st : St) (b : NegBody) (env : UpdateSpec → FetchOutcome)
    (now : Nat) (hs : b.success = some true) (hu : b.updates.getD [] = []) :
    (sync_models st (.response 200 (some b)) env now).1 = SyncRes.noUpdates
    ∧ ((sync_models st (.response 200 (some b)) env now).1).getSuccess = some true
    ∧ ((sync_models st (.response 200 (some b)) env now).1).getMessage
        = some "No updates available"
    ∧ ((sync_models st (.response 200 (some b)) env now).1).getDownloaded = none
    ∧ ((sync_models st (.response 200 (some b)) env now).1).getFailed = none := by
  have hc : (check_for_updates st (.response 200 (some b)) now).1 = b := by
    simp [check_for_updates]
  have hmain : (sync_models st (.response 200 (some b)) env now).1 = SyncRes.noUpdates := by
    rw [sync_models]
    simp [hc, hs, hu]
  exact ⟨hmain, by rw [hmain]; rfl, by rw [hmain]; rfl, by rw [hmain]; rfl,
    by rw [hmain]; rfl⟩

/-- C5 witness: the theorem applied to the empty sample state and the
no-updates negotiation body. -/
theorem C5_no_updates_message_witness :
    (sync_models sampleSt (.response 200 (some sampleEmptyBody)) sampleEnv 3).1
      = SyncRes.noUpdates
    ∧ ((sync_models sampleSt (.response 200 (some sampleEmptyBody)) sampleEnv 3).1).getSuccess
        = some true
    ∧ ((sync_models sampleSt (.response 200 (some sampleEmptyBody)) sampleEnv 3).1).getMessage
        = some "No updates available"
    ∧ ((sync_models sampleSt (.response 200 (some sampleEmptyBody)) sampleEnv 3).1).getDownloaded
        = none
    ∧ ((sync_models sampleSt (.response 200 (some sampleEmptyBody)) sampleEnv 3).1).getFailed
        = none :=
  C5_no_updates_message sampleSt sampleEmptyBody sampleEnv 3 rfl rfl

/-- C10: on a 200 response whose body reports `success` false (or has no
`success` key), `check_for_updates` still advances the manifest
`last_sync` to now and persists the manifest, while `sync_models`
returns that body verbatim as an overall failure — so `last_sync`
advances on a run whose result reports failure. -/
theorem C10_failed_body_still_syncs (st : St) (b : NegBody)
    (env : UpdateSpec → FetchOutcome) (now : Nat)
    (hb : b.success.getD false = false) :
    (check_for_updates st (.response 200 (some b)) now).1 = b
    ∧ ((check_for_updates st (.response 200 (some b)) now).2).manifest.last_sync = some now
    ∧ ((check_for_updates st (.response 200 (some b)) now).2).disk
        = manifestToString ((check_for_updates st (.response 200 (some b)) now).2).manifest
    ∧ (sync_models st (.response 200 (some b)) env now).1 = SyncRes.ofBody b
    ∧ ((sync_models st (.response 200 (some b)) env now).1).getSuccess ≠ some true
    ∧ ((sync_models st (.response 200 (some b)) env now).2).manifest.last_sync
        = some now := by
  have hc : (check_for_updates st (.response 200 (some b)) now).1 = b := by
    simp [check_for_updates]
  have hsync : sync_models st (.response 200 (some b)) env now
      = (SyncRes.ofBody b, (check_for_updates st (.response 200 (some b)) now).2) := by
    rw [sync_models]
    simp [hc, hb]
  refine ⟨hc, ?_, ?_, by rw [hsync], ?_, ?_⟩
  · simp [check_for_updates, save_manifest]
  · simp [check_for_updates, save_manifest]
  · rw [hsync]
    show b.success ≠ some true
    cases hbs : b.success with
    | none => simp
    | some v => rw [hbs] at hb; simp at hb; simp [hb]
  · rw [hsync]
    simp [check_for_updates]

/-- C10 witness: the theorem applied to the sample failing body. -/
theorem C10_failed_body_still_syncs_witness :
    (check_for_updates sampleSt (.response 200 (some sampleFailBody)) 9).1 = sampleFailBody
    ∧ ((check_for_updates sampleSt (.response 200 (some sampleFailBody)) 9).2).manifest.last_sync
        = some 9
    ∧ ((check_for_updates sampleSt (.response 200 (some sampleFailBody)) 9).2).disk
        = manifestToString
          ((check_for_updates sampleSt (.response 200 (some sampleFailBody)) 9).2).manifest
    ∧ (sync_models sampleSt (.response 200 (some sampleFailBody)) sampleEnv 9).1
        = SyncRes.ofBody sampleFailBody
    ∧ ((sync_models sampleSt (.response 200 (some sampleFailBody)) sampleEnv 9).1).getSuccess
        ≠ some true
    ∧ ((sync_models sampleSt (.response 200 (some sampleFailBody)) sampleEnv 9).2).manifest.last_sync
        = some 9 :=
  C10_failed_body_still_syncs sampleSt sampleFailBody sampleEnv 9 (by decide)

/-- C2: when negotiation succeeds with a non-empty list of required
updates, `sync_models` runs the downloader once per artifact in order,
never aborting the batch: each filename is classified into exactly one
of `downloaded` or `failed` (the two lists partition the batch, in
order), and the reported `success` flag is true iff `failed` is
empty. -/
theorem C2_batch_classification (st : St) (env : UpdateSpec → FetchOutcome) (now : Nat)
    (b : NegBody) (specs : List UpdateSpec)
    (hs : b.success = some true) (hu : b.updates = some specs) (hne : specs ≠ []) :
    ∃ os : List (Bool × String),
      os = runOutcomes env now specs ((check_for_updates st (.response 200 (some b)) now).2)
      ∧ (sync_models st (.response 200 (some b)) env now).1
          = SyncRes.batch (os.all fun o => o.1)
              ((os.filter fun o => o.1).map fun o => o.2)
              ((os.filter fun o => !o.1).map fun o => o.2)
      ∧ os.map (fun o => o.2) = specs.map (fun s => s.filename)
      ∧ ((os.all fun o => o.1) = true ↔ (os.filter fun o => !o.1) = [])
      ∧ (os.filter fun o => o.1).length + (os.filter fun o => !o.1).length
          = specs.length := by
  obtain ⟨spec, rest, rfl⟩ : ∃ h t, specs = h :: t := by
    cases specs with
    | nil => exact absurd rfl hne
    | cons h t => exact ⟨h, t, rfl⟩
  have hc : (check_for_updates st (.response 200 (some b)) now).1 = b := by
    simp [check_for_updates]
  refine ⟨_, rfl, ?_, ?_, ?_, ?_⟩
  · rw [sync_models]
    simp only [hc, hs, hu, Option.getD_some]
    rw [syncLoop_res env now (spec :: rest)
      ((check_for_updates st (.response 200 (some b)) now).2) true [] []]
    simp
  · exact runOutcomes_map_snd env now (spec :: rest) _
  · exact all_iff_filter_not_nil _
  · have hlen := length_filter_add_length_filter_not
      (runOutcomes env now (spec :: rest)
        ((check_for_updates st (.response 200 (some b)) now).2)) (fun o => o.1)
    have hmap := runOutcomes_map_snd env now (spec :: rest)
      ((check_for_updates st (.response 200 (some b)) now).2)
    have : (runOutcomes env now (spec :: rest)
        ((check_for_updates st (.response 200 (some b)) now).2)).length
        = (spec :: rest).length := by
      have h1 := congrArg List.length hmap
      simpa using h1
    omega

/-- C2 witness: a batch of three sample updates in which only the second
fails size verification yields the other two in `downloaded`, exactly
the mismatched one in `failed`, and `success = false`. -/
theorem C2_batch_classification_witness :
    (sync_models sampleSt (.response 200 (some sampleBody3)) sampleEnv 7).1
      = SyncRes.batch false ["a-b.bin", "e-f.bin"] ["c-d.bin"] := by
  obtain ⟨os, hos, h1, h2, h3, h4⟩ :=
    C2_batch_classification sampleSt sampleEnv 7 sampleBody3 sampleSpecs rfl rfl
      (by decide)
  rw [h1, hos]
  decide

end ModelSync
